import Mathlib

/-!
Verification of the HCI core (`src/net/bluetooth/hci_core.c`) against its
natural-language specification.

The C source is shallowly embedded below.  Pointer-based packet buffers
(`struct bt_buf`) become an offset/length view, the process-wide `struct
bt_dev` becomes a record, and the two cooperative fibers plus the
controller/caller environment become a labelled small-step system with an
executable `step`/`run` semantics.  Machine integers are `Nat` with explicit
`% 2^w` where a C assignment truncates.  The headers `bluetooth/hci.h` and
`bluetooth/bluetooth.h` are not part of the repository snapshot, so the
constants and wire-struct layouts they provide are modelled from the spec
(each such definition says so in its doc comment).
-/

/-- Little-endian byte reader: byte `i` of a response-parameter list.  A read
past the received bytes yields 0 (the C code would read stale pool memory
there; the claims below never depend on that case).  The `% 256` models the
`uint8_t` width of a wire byte. -/
def rd8 (p : List Nat) (i : Nat) : Nat := p.getD i 0 % 256

/-- Little-endian 16-bit read at byte offset `i`, as done by
`sys_le16_to_cpu` on an overlaid `uint16_t` field. -/
def rd16 (p : List Nat) (i : Nat) : Nat := rd8 p i + 256 * rd8 p (i + 1)

/-- Read `n` consecutive bytes starting at offset `i` (models `memcpy` out of
an overlaid wire struct). -/
def rdBytes (p : List Nat) (i n : Nat) : List Nat :=
  (List.range n).map (fun j => rd8 p (i + j))

/-! ### Constants

`bluetooth/hci.h` and `bluetooth/bluetooth.h` are not in `src/`; the opcode
and feature-bit constants below are modelled from the spec (§4.5, §4.6 and
the glossary name the commands; the values are the standard HCI opcodes the
header provides).  Only their distinctness matters to the theorems. -/

/-- Modelled from the spec: HCI_Reset opcode (from `bluetooth/hci.h`). -/
def BT_HCI_OP_RESET : Nat := 0x0C03

/-- Modelled from the spec: Set_Event_Mask opcode (from `bluetooth/hci.h`). -/
def BT_HCI_OP_SET_EVENT_MASK : Nat := 0x0C01

/-- Modelled from the spec: Read_Local_Version_Information opcode. -/
def BT_HCI_OP_READ_LOCAL_VERSION_INFO : Nat := 0x1001

/-- Modelled from the spec: Read_Local_Supported_Features opcode. -/
def BT_HCI_OP_READ_LOCAL_FEATURES : Nat := 0x1003

/-- Modelled from the spec: Read_Buffer_Size (BR/EDR) opcode. -/
def BT_HCI_OP_READ_BUFFER_SIZE : Nat := 0x1005

/-- Modelled from the spec: Read_BD_ADDR opcode. -/
def BT_HCI_OP_READ_BD_ADDR : Nat := 0x1009

/-- Modelled from the spec: LE_Read_Buffer_Size opcode. -/
def BT_HCI_OP_LE_READ_BUFFER_SIZE : Nat := 0x2002

/-- Modelled from the spec: LE_Read_Local_Supported_Features opcode. -/
def BT_HCI_OP_LE_READ_LOCAL_FEATURES : Nat := 0x2003

/-- Modelled from the spec: LE_Write_LE_Host_Supported opcode. -/
def BT_HCI_OP_LE_WRITE_LE_HOST_SUPP : Nat := 0x200D

/-- Modelled from the spec: the `BR/EDR Not Supported` bit of feature byte 4
(`BT_LMP_NO_BREDR` from `bluetooth/hci.h`).  Distinct from `BT_LMP_LE`. -/
def BT_LMP_NO_BREDR : Nat := 0x20

/-- Modelled from the spec: the `LE Supported (Controller)` bit of feature
byte 4 (`BT_LMP_LE` from `bluetooth/hci.h`; spec scenario S1 uses 0x40). -/
def BT_LMP_LE : Nat := 0x40

/-- Modelled from the spec: buffer type `Command` (`BT_CMD`). -/
def BT_CMD : Nat := 0

/-- Modelled from the spec: buffer type `Event` (`BT_EVT`). -/
def BT_EVT : Nat := 1

/-- Modelled from the spec: buffer type `ACL-Data` (`BT_ACL`). -/
def BT_ACL : Nat := 2

/-- Modelled from the spec: `bt_acl_handle` (from `bluetooth/bluetooth.h`)
extracts the low 12 bits of the `handle_flags` field (§6: "the lower 12 bits
are the connection handle"). -/
def bt_acl_handle (h : Nat) : Nat := h % 4096

/-! ### Packet buffers (`struct bt_buf`)

The byte storage itself is left abstract; the view is the `(data − buf, len)`
offset pair plus the bookkeeping fields the core reads.  `sync` is the
optional one-shot signalling handle, abstracted to the flag "a waiter is
attached". -/

/-- The `struct bt_buf` bookkeeping fields: buffer type, HCI opcode, the
attached synchronous-waiter handle (abstracted to a flag), and the payload
window `data − buf` / `len`. -/
structure BtBuf where
  typ : Nat
  opcode : Nat
  sync : Bool
  dataOff : Nat
  len : Nat
deriving DecidableEq

/-- Embedding of `bt_buf_add`: `len += n` (the C function also returns the old tail
pointer; only the state effect is modelled). -/
def bt_buf_add (b : BtBuf) (n : Nat) : BtBuf :=
  { b with len := b.len + n }

/-- Embedding of `bt_buf_push`: `data -= n; len += n` (requires `headroom ≥ n`). -/
def bt_buf_push (b : BtBuf) (n : Nat) : BtBuf :=
  { b with dataOff := b.dataOff - n, len := b.len + n }

/-- Embedding of `bt_buf_pull`: `len -= n; data += n` (requires `len ≥ n`). -/
def bt_buf_pull (b : BtBuf) (n : Nat) : BtBuf :=
  { b with dataOff := b.dataOff + n, len := b.len - n }

/-- Embedding of `bt_buf_headroom`: `data − buf`. -/
def bt_buf_headroom (b : BtBuf) : Nat := b.dataOff

/-- Embedding of `bt_buf_tailroom`: `BT_BUF_MAX_DATA − headroom − len`.  The capacity
`BT_BUF_MAX_DATA` is a compile-time parameter whose value is not in `src/`,
so it is passed explicitly as `cap`. -/
def bt_buf_tailroom (cap : Nat) (b : BtBuf) : Nat :=
  cap - bt_buf_headroom b - b.len

/-- Embedding of `bt_buf_get_reserve`, applied to the buffer obtained from `free_bufs`:
sets `data = buf + reserve_head`, `len = 0`, `sync = NULL` and leaves every
other field (in particular `type` and `opcode`) as the previous user left
it. -/
def bt_buf_get_reserve (reserve_head : Nat) (b : BtBuf) : BtBuf :=
  { b with dataOff := reserve_head, len := 0, sync := false }

/-- The buffer-field effect of `bt_hci_cmd_create opcode param_len` on the
buffer it acquired: reserve the driver headroom, set `type = BT_CMD`, record
`opcode`, clear `sync`, then `bt_buf_add` the 3-byte command header
(the header bytes themselves live in the unmodelled storage). -/
def bt_hci_cmd_create_buf (opcode param_len head_reserve : Nat) (b : BtBuf) : BtBuf :=
  let b1 := bt_buf_get_reserve head_reserve b
  let b2 := { b1 with typ := BT_CMD, opcode := opcode, sync := false }
  bt_buf_add b2 (2 + 1)

/-! ### Controller state record (`struct bt_dev`) -/

/-- The process-wide `struct bt_dev` fields mutated or read by the embedded
code.  `ncmd` is the credit count; the `ncmd_sem` counter and the queues
live in `Sys` below.  Feature pages and the address are byte lists. -/
structure BtDev where
  bdaddr : List Nat
  hci_version : Nat
  hci_revision : Nat
  manufacturer : Nat
  features : List Nat
  le_features : List Nat
  le_mtu : Nat
  le_pkts : Nat
  ncmd : Nat
  sent_cmd : Option BtBuf
deriving DecidableEq

/-! ### Response parsers (lines 243–325)

The response wire structs are overlaid by the C code; their layouts come
from `bluetooth/hci.h`, which is not in `src/`, and are modelled from the
spec (§4.5 field names; standard little-endian HCI response layout). -/

/-- Embedding of `hci_reset_complete`: reads the status byte, logs, changes nothing. -/
def hci_reset_complete (p : List Nat) (d : BtDev) : BtDev :=
  d

/-- Embedding of `hci_read_local_ver_complete`: on status 0 record `hci_version` (byte 1),
`hci_revision` (le16 at 2) and `manufacturer` (le16 at 5; byte 4 is
`lmp_version`, which the code does not store). -/
def hci_read_local_ver_complete (p : List Nat) (d : BtDev) : BtDev :=
  if rd8 p 0 ≠ 0 then d
  else { d with hci_version := rd8 p 1, hci_revision := rd16 p 2,
                manufacturer := rd16 p 5 }

/-- Embedding of `hci_read_features_complete`: `memcpy` the 8 feature bytes regardless of
the status byte. -/
def hci_read_features_complete (p : List Nat) (d : BtDev) : BtDev :=
  { d with features := rdBytes p 1 8 }

/-- Embedding of `hci_read_buffer_size_complete`: on status 0, and only if `le_mtu` is
still 0, borrow the BR/EDR sizes: `le_mtu = acl_max_len` (le16 at 1),
`le_pkts = acl_max_num` (le16 at 4, truncated into the `uint8_t` field). -/
def hci_read_buffer_size_complete (p : List Nat) (d : BtDev) : BtDev :=
  if rd8 p 0 ≠ 0 then d
  else if d.le_mtu ≠ 0 then d
  else { d with le_mtu := rd16 p 1, le_pkts := rd16 p 4 % 256 }

/-- Embedding of `hci_read_bdaddr_complete`: on status 0 record the 6 address bytes. -/
def hci_read_bdaddr_complete (p : List Nat) (d : BtDev) : BtDev :=
  if rd8 p 0 ≠ 0 then d
  else { d with bdaddr := rdBytes p 1 6 }

/-- Embedding of `hci_le_read_buffer_size_complete`: on status 0 record
`le_mtu = le_max_len` (le16 at 1) and `le_pkts = le_max_num` (byte 3). -/
def hci_le_read_buffer_size_complete (p : List Nat) (d : BtDev) : BtDev :=
  if rd8 p 0 ≠ 0 then d
  else { d with le_mtu := rd16 p 1, le_pkts := rd8 p 3 }

/-- Embedding of `hci_le_read_features_complete`: `memcpy` the 8 LE feature bytes
regardless of the status byte. -/
def hci_le_read_features_complete (p : List Nat) (d : BtDev) : BtDev :=
  { d with le_features := rdBytes p 1 8 }

/-- The `switch (opcode)` of `hci_cmd_complete` (lines 354–379): dispatch to
the matching response parser; an unknown opcode only logs. -/
def hci_cmd_complete_parse (opcode : Nat) (p : List Nat) (d : BtDev) : BtDev :=
  if opcode = BT_HCI_OP_RESET then hci_reset_complete p d
  else if opcode = BT_HCI_OP_READ_LOCAL_VERSION_INFO then hci_read_local_ver_complete p d
  else if opcode = BT_HCI_OP_READ_LOCAL_FEATURES then hci_read_features_complete p d
  else if opcode = BT_HCI_OP_READ_BUFFER_SIZE then hci_read_buffer_size_complete p d
  else if opcode = BT_HCI_OP_READ_BD_ADDR then hci_read_bdaddr_complete p d
  else if opcode = BT_HCI_OP_LE_READ_BUFFER_SIZE then hci_le_read_buffer_size_complete p d
  else if opcode = BT_HCI_OP_LE_READ_LOCAL_FEATURES then hci_le_read_features_complete p d
  else d

/-- Spec-side definition, written from the words of the §4.5 table (one row
per recognized opcode, "on success" = status byte 0, all multi-byte integers
little-endian, values stored at the record fields' widths).  Compared with
`hci_cmd_complete_parse`, which is the embedding of the source switch. -/
def spec_response_table (opcode : Nat) (p : List Nat) (d : BtDev) : BtDev :=
  if opcode = BT_HCI_OP_RESET then
    d
  else if opcode = BT_HCI_OP_READ_LOCAL_VERSION_INFO then
    (if rd8 p 0 = 0 then
      { d with hci_version := rd8 p 1, hci_revision := rd16 p 2,
               manufacturer := rd16 p 5 }
     else d)
  else if opcode = BT_HCI_OP_READ_LOCAL_FEATURES then
    { d with features := rdBytes p 1 8 }
  else if opcode = BT_HCI_OP_READ_BUFFER_SIZE then
    (if rd8 p 0 = 0 ∧ d.le_mtu = 0 then
      { d with le_mtu := rd16 p 1, le_pkts := rd16 p 4 % 256 }
     else d)
  else if opcode = BT_HCI_OP_READ_BD_ADDR then
    (if rd8 p 0 = 0 then { d with bdaddr := rdBytes p 1 6 } else d)
  else if opcode = BT_HCI_OP_LE_READ_BUFFER_SIZE then
    (if rd8 p 0 = 0 then { d with le_mtu := rd16 p 1, le_pkts := rd8 p 3 } else d)
  else if opcode = BT_HCI_OP_LE_READ_LOCAL_FEATURES then
    { d with le_features := rdBytes p 1 8 }
  else d

/-! ### The ACL handler (`hci_acl`, lines 218–239)

The handler parses the 4-byte little-endian ACL header (`handle_flags:u16,
len:u16`, layout from spec §6), pulls it, validates the remaining length,
and returns the buffer to the pool in both branches (upper delivery is a
stub in this core).  A packet shorter than the header would make the struct
overlay read past the received bytes and `bt_buf_pull` underflow `len`;
that case is left unspecified (`none`). -/

/-- Observable outcome of `hci_acl`: whether the buffer went back to the
pool (`bt_buf_put`), whether anything was delivered upstream (never, in
this core), and whether the length-mismatch error path was taken. -/
structure AclOut where
  released : Bool
  delivered : Bool
  err_logged : Bool
deriving DecidableEq

/-- Embedding of `hci_acl`: parse the header, `bt_buf_pull` it, compare the remaining
payload length with the header `len`; log-and-drop on mismatch.  `d` is the
controller state record, which the handler never writes. -/
def hci_acl (payload : List Nat) (d : BtDev) : Option (BtDev × AclOut) :=
  if payload.length < 4 then none
  else
    let handle0 := rd16 payload 0
    let flags := handle0 / 4096
    let handle := bt_acl_handle handle0
    let len := rd16 payload 2
    let rest := payload.drop 4
    if rest.length ≠ len then
      some (d, { released := true, delivered := false, err_logged := true })
    else
      some (d, { released := true, delivered := false, err_logged := false })

/-! ### Completion correlator and credit refill (lines 327–412)

`Sys` carries the pieces of global state these functions touch: the device
record, the `ncmd_sem` counter, the free pool, the command queue and the
command fiber's program point.  `wakes` is the transcript of
`nano_fiber_sem_give(sent->sync)` calls (the opcode of the woken buffer),
used to state the synchronous-completion claims. -/

/-- Program point of `hci_cmd_fiber` between suspensions: parked on
`nano_fiber_sem_take_wait(&dev.ncmd_sem)`, or parked on
`nano_fifo_get_wait(&dev.cmd_queue)` (credit already consumed). -/
inductive Phase where
  | semWait : Phase
  | queueWait : Phase
deriving DecidableEq

/-- Global state: `struct bt_dev` plus the executor objects the embedded
code uses (`ncmd_sem` count, free pool, command queue) and the command
fiber's phase.  `wakes` records synchronous wake-ups. -/
structure Sys where
  dev : BtDev
  sem : Nat
  cmdq : List BtBuf
  pool : List BtBuf
  wakes : List Nat
  phase : Phase
deriving DecidableEq

/-- A `Command Complete` event as consumed by `hci_cmd_complete`: the
`ncmd:u8, opcode:u16` prologue (spec §6) already overlaid/decoded, plus the
response parameter bytes that follow it. -/
structure CmdCompleteEvt where
  ncmd : Nat
  opcode : Nat
  params : List Nat
deriving DecidableEq

/-- A `Command Status` event: `status:u8, ncmd:u8, opcode:u16` (spec §6). -/
structure CmdStatusEvt where
  status : Nat
  ncmd : Nat
  opcode : Nat
deriving DecidableEq

/-- Embedding of `hci_cmd_done`: the completion correlator.  The C code reads
`dev.sent_cmd->opcode` without a null check, so an empty `sent_cmd`
dereferences a null pointer — modelled as `none`.  On an opcode mismatch it
only logs and returns; on a match it clears the slot, wakes the attached
synchronous waiter if any, and releases the buffer to the pool. -/
def hci_cmd_done (opcode : Nat) (s : Sys) : Option Sys :=
  match s.dev.sent_cmd with
  | none => none
  | some sent =>
    if sent.opcode ≠ opcode then some s
    else
      some { s with dev := { s.dev with sent_cmd := none },
                    pool := s.pool ++ [sent],
                    wakes := if sent.sync then s.wakes ++ [sent.opcode] else s.wakes }

/-- The credit-refill tail shared verbatim by `hci_cmd_complete`
(lines 383–387) and `hci_cmd_status` (lines 407–411): if the event carried
`ncmd ≠ 0` and the current credit is 0, set `ncmd = 1` and give `ncmd_sem`
once. -/
def hci_ncmd_refill (evtNcmd : Nat) (s : Sys) : Sys :=
  if evtNcmd ≠ 0 ∧ s.dev.ncmd = 0 then
    { s with dev := { s.dev with ncmd := 1 }, sem := s.sem + 1 }
  else s

/-- Embedding of `hci_cmd_complete`: run the response-parser switch, then the completion
correlator, then the credit refill.  `none` is the null-pointer dereference
inherited from `hci_cmd_done`. -/
def hci_cmd_complete (e : CmdCompleteEvt) (s : Sys) : Option Sys :=
  let d1 := hci_cmd_complete_parse e.opcode e.params s.dev
  match hci_cmd_done e.opcode { s with dev := d1 } with
  | none => none
  | some s2 => some (hci_ncmd_refill e.ncmd s2)

/-- Embedding of `hci_cmd_status`: the opcode switch has only a logging default case;
then the completion correlator and the credit refill, as for
`hci_cmd_complete`. -/
def hci_cmd_status (e : CmdStatusEvt) (s : Sys) : Option Sys :=
  match hci_cmd_done e.opcode s with
  | none => none
  | some s2 => some (hci_ncmd_refill e.ncmd s2)

/-! ### The two-fiber system

Cooperative fibers switch only at FIFO/semaphore waits (spec §5), so each
label below is one uninterruptible stretch of code:

* `enq b` — a caller runs `bt_hci_cmd_send`/`bt_hci_cmd_send_sync` with a
  ready buffer `b` (`sync` distinguishes the two) and `nano_fifo_put`s it;
* `tok` — `hci_cmd_fiber` returns from `nano_fiber_sem_take_wait`;
* `send b` — `hci_cmd_fiber` returns from `nano_fifo_get_wait` with `b`,
  clears `ncmd`, hands `b` to `drv->send` and records it as `sent_cmd`
  (lines 451–457 run without a suspension point for a non-blocking driver);
* `complete e` / `status e` — `hci_rx_fiber` processes one Command
  Complete / Command Status event through `hci_event`.

The controller and the callers are the environment: any sequence of labels
may be attempted, and `step` returns `none` when a label is not enabled
(or the code crashes). -/

inductive Label where
  | enq : BtBuf → Label
  | tok : Label
  | send : BtBuf → Label
  | complete : CmdCompleteEvt → Label
  | status : CmdStatusEvt → Label
deriving DecidableEq

/-- One labelled step of the system. -/
def step (s : Sys) : Label → Option Sys
  | .enq b => some { s with cmdq := s.cmdq ++ [b] }
  | .tok =>
      if s.phase = Phase.semWait ∧ 0 < s.sem then
        some { s with sem := s.sem - 1, phase := Phase.queueWait }
      else none
  | .send b =>
      match s.phase, s.cmdq with
      | Phase.queueWait, b0 :: rest =>
          if b0 = b then
            some { s with cmdq := rest,
                          dev := { s.dev with ncmd := 0, sent_cmd := some b },
                          phase := Phase.semWait }
          else none
      | _, _ => none
  | .complete e => hci_cmd_complete e s
  | .status e => hci_cmd_status e s

/-- Run a list of labels from a state; `none` as soon as a label is not
enabled. -/
def runSys (s : Sys) : List Label → Option Sys
  | [] => some s
  | l :: tr =>
    match step s l with
    | none => none
    | some s1 => runSys s1 tr

/-- A pool buffer as zero-initialized at process start. -/
def initBuf : BtBuf :=
  { typ := 0, opcode := 0, sync := false, dataOff := 0, len := 0 }

/-- The `struct bt_dev` contents after `cmd_queue_init`: zero-initialized statics, then
`ncmd = 1`. -/
def initDev : BtDev :=
  { bdaddr := [0, 0, 0, 0, 0, 0], hci_version := 0, hci_revision := 0,
    manufacturer := 0, features := [0, 0, 0, 0, 0, 0, 0, 0],
    le_features := [0, 0, 0, 0, 0, 0, 0, 0], le_mtu := 0, le_pkts := 0,
    ncmd := 1, sent_cmd := none }

/-- The system right after `bt_init`'s queue/fiber setup: `NUM_BUFS = 5`
free buffers, one credit (`ncmd = 1`, `ncmd_sem` given once), empty queues,
command fiber parked on the semaphore. -/
def initSys : Sys :=
  { dev := initDev, sem := 1, cmdq := [], pool := List.replicate 5 initBuf,
    wakes := [], phase := Phase.semWait }

/-! ### Bring-up (`hci_init`, `bt_init`, lines 487–644)

`hci_init` runs on the calling task; the RX worker answers the barriers.
For the error-propagation and abort claims only two aspects matter: which
buffer acquisitions succeed and what the device record holds when
`hci_init` reads it.  The acquisition outcomes are an oracle `alloc : Nat →
Bool` consumed left to right (acquisition `i` succeeds iff `alloc i`); the
device record is the snapshot `d` (its concurrent updates by the RX worker
during the barriers are resolved by the time each read happens, and the
claims quantify over all snapshots). -/

/-- Result of `hci_init` / `bt_init` (`0`, `-ENOBUFS`, `-ENODEV`, or the
error code returned by `drv->open`). -/
inductive InitRes where
  | ok : InitRes
  | nobufs : InitRes
  | nodev : InitRes
  | drvErr : Nat → InitRes
deriving DecidableEq

/-- Embedding of `bt_hci_cmd_send op NULL` as seen by `hci_init`: acquire one buffer
(acquisition index `i`), return `-ENOBUFS` if the pool refused, else
enqueue and return 0.  Yields the result and the next acquisition index. -/
def bt_hci_cmd_send_r (alloc : Nat → Bool) (i : Nat) : InitRes × Nat :=
  ((if alloc i then InitRes.ok else InitRes.nobufs), i + 1)

/-- Embedding of `bt_hci_cmd_send_sync op NULL` as seen by `hci_init`: same acquisition
behaviour; on success it blocks until the correlator wakes it and then
returns 0. -/
def bt_hci_cmd_send_sync_r (alloc : Nat → Bool) (i : Nat) : InitRes × Nat :=
  ((if alloc i then InitRes.ok else InitRes.nobufs), i + 1)

/-- Embedding of `bt_hci_cmd_create` as seen by `hci_init`: one acquisition; `true` iff a
buffer was obtained. -/
def bt_hci_cmd_create_r (alloc : Nat → Bool) (i : Nat) : Bool × Nat :=
  (alloc i, i + 1)

/-- Embedding of `hci_init` (lines 487–564).  The results named `r1 … r6` are bound and
then dropped exactly as the C code discards the return values of those
sends; only the two `bt_hci_cmd_create` null checks and the LE-capability
check decide the return value.  `lmp_le_capable` / `lmp_bredr_capable` are
the macros from lines 43–44. -/
def hci_init (alloc : Nat → Bool) (d : BtDev) : InitRes :=
  let r1 := bt_hci_cmd_send_r alloc 0
  let r2 := bt_hci_cmd_send_r alloc r1.2
  let r3 := bt_hci_cmd_send_r alloc r2.2
  let r4 := bt_hci_cmd_send_sync_r alloc r3.2
  if Nat.land (d.features.getD 4 0) BT_LMP_LE = 0 then InitRes.nodev
  else
    let r5 := bt_hci_cmd_send_r alloc r4.2
    let r6 := bt_hci_cmd_send_r alloc r5.2
    let c8 := bt_hci_cmd_create_r alloc r6.2
    if c8.1 = false then InitRes.nobufs
    else
      if Nat.land (d.features.getD 4 0) BT_LMP_NO_BREDR = 0 then
        let i9 := if d.le_mtu = 0 then (bt_hci_cmd_send_r alloc c8.2).2 else c8.2
        let c9 := bt_hci_cmd_create_r alloc i9
        if c9.1 = false then InitRes.nobufs
        else InitRes.ok
      else InitRes.ok

/-- Embedding of `bt_init` (lines 627–644): require a registered driver, initialize the
queues and fibers, call `drv->open()`, then run `hci_init`. -/
def bt_init (drvRegistered : Bool) (openRes : Nat) (alloc : Nat → Bool)
    (d : BtDev) : InitRes :=
  if drvRegistered = false then InitRes.nodev
  else if openRes ≠ 0 then InitRes.drvErr openRes
  else hci_init alloc d

/-! ### Buffer-operation sequences (for the packet-view invariant) -/

/-- One packet-view operation. -/
inductive BufOp where
  | add : Nat → BufOp
  | push : Nat → BufOp
  | pull : Nat → BufOp
deriving DecidableEq

/-- The stated precondition of one operation (spec §4.1): `tailroom ≥ n` for
`add`, `headroom ≥ n` for `push`, `len ≥ n` for `pull`. -/
def bufOpPre (cap : Nat) (b : BtBuf) : BufOp → Bool
  | .add n => decide (n ≤ bt_buf_tailroom cap b)
  | .push n => decide (n ≤ bt_buf_headroom b)
  | .pull n => decide (n ≤ b.len)

/-- Apply one operation. -/
def bufOpApply (b : BtBuf) : BufOp → BtBuf
  | .add n => bt_buf_add b n
  | .push n => bt_buf_push b n
  | .pull n => bt_buf_pull b n

/-- All preconditions along a sequence hold. -/
def bufOpsPre (cap : Nat) : BtBuf → List BufOp → Bool
  | _, [] => true
  | b, o :: os => bufOpPre cap b o && bufOpsPre cap (bufOpApply b o) os

/-- Apply a sequence of operations left to right. -/
def bufOpsApply (b : BtBuf) : List BufOp → BtBuf
  | [] => b
  | o :: os => bufOpsApply (bufOpApply b o) os

/-! ### Trace predicates for the single-outstanding-command claims -/

/-- The claim of spec §4.2/§8.3 as stated: scanning the trace while tracking
the outstanding command, a second `send` before a completion *correlated to
that command* (matching opcode, carrying credit) is a violation. -/
def claimC5Ok : List Label → Option BtBuf → Bool
  | [], _ => true
  | .send b :: tr, none => claimC5Ok tr (some b)
  | .send _ :: _, some _ => false
  | .complete e :: tr, some b =>
      if b.opcode = e.opcode ∧ e.ncmd ≠ 0 then claimC5Ok tr none
      else claimC5Ok tr (some b)
  | .status e :: tr, some b =>
      if b.opcode = e.opcode ∧ e.ncmd ≠ 0 then claimC5Ok tr none
      else claimC5Ok tr (some b)
  | _ :: tr, o => claimC5Ok tr o

/-- The amended separation property: between any two `send`s some Command
Complete or Command Status event advertising `ncmd ≠ 0` is processed (not
necessarily one matching the outstanding opcode).  `f` is true while a
`send` may still occur before the next such event. -/
def sendsSeparated : List Label → Bool → Bool
  | [], _ => true
  | .send _ :: tr, f => f && sendsSeparated tr false
  | .complete e :: tr, f => sendsSeparated tr (f || decide (e.ncmd ≠ 0))
  | .status e :: tr, f => sendsSeparated tr (f || decide (e.ncmd ≠ 0))
  | _ :: tr, f => sendsSeparated tr f

/-- Abstraction of a state for `sendsSeparated`: a `send` can still happen
before the next credit-bearing event iff the credit is present (`ncmd = 1`)
or already consumed by the fiber (`queueWait`). -/
def flagOf (s : Sys) : Bool :=
  decide (s.dev.ncmd = 1) || decide (s.phase = Phase.queueWait)

/-- Reachable-state invariant tying the `ncmd_sem` count, the `ncmd` mirror
and the fiber phase together. -/
def SysInv (s : Sys) : Prop :=
  (s.phase = Phase.semWait → s.sem = s.dev.ncmd ∧ s.dev.ncmd ≤ 1) ∧
  (s.phase = Phase.queueWait → s.sem = 0 ∧ s.dev.ncmd = 1)

/-! ### Concrete sample data (used by counterexamples and witnesses) -/

/-- A synchronous command buffer with opcode 1 (as `bt_hci_cmd_create 1 0`
followed by `bt_hci_cmd_send_sync` would produce it). -/
def bufA : BtBuf :=
  { typ := BT_CMD, opcode := 1, sync := true, dataOff := 0, len := 3 }

/-- An asynchronous command buffer with opcode 1. -/
def bufA0 : BtBuf :=
  { typ := BT_CMD, opcode := 1, sync := false, dataOff := 0, len := 3 }

/-- An asynchronous command buffer with opcode 3. -/
def bufB : BtBuf :=
  { typ := BT_CMD, opcode := 3, sync := false, dataOff := 0, len := 3 }

/-- A Command Complete event whose opcode (2) matches no sample buffer and
which advertises one credit. -/
def evtMismatch : CmdCompleteEvt := { ncmd := 1, opcode := 2, params := [] }

/-- A Command Complete event for opcode 1 carrying one credit. -/
def evtMatch : CmdCompleteEvt := { ncmd := 1, opcode := 1, params := [] }

/-- A system state with `bufA` outstanding and no credit: the command worker
has just handed `bufA` to the driver (the pool is empty in this snapshot). -/
def sysOut : Sys :=
  { dev := { initDev with ncmd := 0, sent_cmd := some bufA }, sem := 0,
    cmdq := [], pool := [], wakes := [], phase := Phase.semWait }

/-- The state `initSys` reaches after `[enq bufA, tok, send bufA]`: `bufA` outstanding. -/
def sysAfterSend : Sys :=
  { dev := { initDev with ncmd := 0, sent_cmd := some bufA }, sem := 0,
    cmdq := [], pool := List.replicate 5 initBuf, wakes := [], phase := Phase.semWait }

/-- The state `sysAfterSend` reaches after the matching completion `evtMatch`: slot cleared,
buffer back in the pool, waiter woken, credit refilled. -/
def sysCompleted : Sys :=
  { dev := { initDev with ncmd := 1, sent_cmd := none }, sem := 1,
    cmdq := [], pool := List.replicate 5 initBuf ++ [bufA], wakes := [1],
    phase := Phase.semWait }

/-- The trace refuting the as-stated single-outstanding claim: send `bufA0`,
receive a *mismatched* completion (opcode 2) that nevertheless refills the
credit, then send `bufB` — with no completion correlated to `bufA0` in
between. -/
def trcC5 : List Label :=
  [Label.enq bufA0, Label.enq bufB, Label.tok, Label.send bufA0,
   Label.complete evtMismatch, Label.tok, Label.send bufB]

/-- A short well-behaved trace used as a witness: one synchronous command,
completed by a matching event. -/
def trcWitness : List Label :=
  [Label.enq bufA, Label.tok, Label.send bufA, Label.complete evtMatch]

/-- Device snapshot with `features[4] = 0x20`: `NO_BREDR` set, `LE` clear. -/
def devNoBredr : BtDev :=
  { initDev with features := [0, 0, 0, 0, 0x20, 0, 0, 0] }

/-- An allocation oracle under which every acquisition succeeds. -/
def allocAll : Nat → Bool := fun _ => true

/-- A buffer view with headroom 2 and payload length 3. -/
def bufView23 : BtBuf :=
  { typ := 0, opcode := 0, sync := false, dataOff := 2, len := 3 }

/-- A valid operation sequence on `bufView23` at capacity 10. -/
def opsSample : List BufOp := [BufOp.add 1, BufOp.push 2, BufOp.pull 4]

/-! ### Helper lemmas -/

/-- The response-parser switch never touches `ncmd` or `sent_cmd`. -/
theorem parse_ncmd_sent (op : Nat) (p : List Nat) (d : BtDev) :
    (hci_cmd_complete_parse op p d).ncmd = d.ncmd ∧
    (hci_cmd_complete_parse op p d).sent_cmd = d.sent_cmd := by
  unfold hci_cmd_complete_parse hci_reset_complete hci_read_local_ver_complete
    hci_read_features_complete hci_read_buffer_size_complete
    hci_read_bdaddr_complete hci_le_read_buffer_size_complete
    hci_le_read_features_complete
  repeat' split
  all_goals simp

/-- The correlator `hci_cmd_done` preserves credit, semaphore, queue and phase whenever it
does not crash. -/
theorem done_shape (op : Nat) (s r : Sys) (h : hci_cmd_done op s = some r) :
    r.dev.ncmd = s.dev.ncmd ∧ r.sem = s.sem ∧ r.phase = s.phase ∧
    r.cmdq = s.cmdq := by
  unfold hci_cmd_done at h
  cases hs : s.dev.sent_cmd with
  | none => rw [hs] at h; exact absurd h (by simp)
  | some sent =>
    rw [hs] at h
    by_cases hop : sent.opcode ≠ op
    · simp [hop] at h; subst h; exact ⟨rfl, rfl, rfl, rfl⟩
    · simp [hop] at h; subst h; exact ⟨rfl, rfl, rfl, rfl⟩

/-- The correlator `hci_cmd_done` appends at most the matched opcode to the wake log. -/
theorem done_wakes (op : Nat) (s r : Sys) (h : hci_cmd_done op s = some r) :
    r.wakes = s.wakes ∨ r.wakes = s.wakes ++ [op] := by
  unfold hci_cmd_done at h
  cases hs : s.dev.sent_cmd with
  | none => rw [hs] at h; exact absurd h (by simp)
  | some sent =>
    rw [hs] at h
    by_cases hop : sent.opcode ≠ op
    · simp [hop] at h; subst h; exact Or.inl rfl
    · simp [hop] at h
      rw [not_not] at hop
      subst h
      by_cases hsync : sent.sync
      · right; simp [hsync, hop]
      · left; simp [hsync]

/-- Field accounting for the credit refill. -/
theorem refill_shape (n : Nat) (s : Sys) :
    (hci_ncmd_refill n s).dev.ncmd
        = (if n ≠ 0 ∧ s.dev.ncmd = 0 then 1 else s.dev.ncmd) ∧
    (hci_ncmd_refill n s).sem
        = (if n ≠ 0 ∧ s.dev.ncmd = 0 then s.sem + 1 else s.sem) ∧
    (hci_ncmd_refill n s).phase = s.phase ∧
    (hci_ncmd_refill n s).cmdq = s.cmdq ∧
    (hci_ncmd_refill n s).wakes = s.wakes ∧
    (hci_ncmd_refill n s).pool = s.pool ∧
    (hci_ncmd_refill n s).dev.sent_cmd = s.dev.sent_cmd := by
  unfold hci_ncmd_refill
  split <;> simp_all

/-- Field accounting for a processed `Command Complete` event: phase and
command queue untouched, credit and semaphore per the refill rule. -/
theorem complete_shape (e : CmdCompleteEvt) (s s' : Sys)
    (h : hci_cmd_complete e s = some s') :
    s'.phase = s.phase ∧ s'.cmdq = s.cmdq ∧
    s'.dev.ncmd = (if e.ncmd ≠ 0 ∧ s.dev.ncmd = 0 then 1 else s.dev.ncmd) ∧
    s'.sem = (if e.ncmd ≠ 0 ∧ s.dev.ncmd = 0 then s.sem + 1 else s.sem) := by
  simp only [hci_cmd_complete] at h
  cases hd : hci_cmd_done e.opcode
      { s with dev := hci_cmd_complete_parse e.opcode e.params s.dev } with
  | none => rw [hd] at h; exact absurd h (by simp)
  | some s2 =>
    rw [hd] at h
    simp only [Option.some.injEq] at h
    subst h
    have hp := parse_ncmd_sent e.opcode e.params s.dev
    have hds : s2.dev.ncmd = (hci_cmd_complete_parse e.opcode e.params s.dev).ncmd ∧
        s2.sem = s.sem ∧ s2.phase = s.phase ∧ s2.cmdq = s.cmdq :=
      done_shape e.opcode _ s2 hd
    have hn2 : s2.dev.ncmd = s.dev.ncmd := hds.1.trans hp.1
    have hr := refill_shape e.ncmd s2
    refine ⟨?_, ?_, ?_, ?_⟩
    · rw [hr.2.2.1, hds.2.2.1]
    · rw [hr.2.2.2.1, hds.2.2.2]
    · rw [hr.1, hn2]
    · rw [hr.2.1, hn2, hds.2.1]

/-- Field accounting for a processed `Command Status` event. -/
theorem status_shape (e : CmdStatusEvt) (s s' : Sys)
    (h : hci_cmd_status e s = some s') :
    s'.phase = s.phase ∧ s'.cmdq = s.cmdq ∧
    s'.dev.ncmd = (if e.ncmd ≠ 0 ∧ s.dev.ncmd = 0 then 1 else s.dev.ncmd) ∧
    s'.sem = (if e.ncmd ≠ 0 ∧ s.dev.ncmd = 0 then s.sem + 1 else s.sem) := by
  simp only [hci_cmd_status] at h
  cases hd : hci_cmd_done e.opcode s with
  | none => rw [hd] at h; exact absurd h (by simp)
  | some s2 =>
    rw [hd] at h
    simp only [Option.some.injEq] at h
    subst h
    have hds := done_shape e.opcode s s2 hd
    have hr := refill_shape e.ncmd s2
    refine ⟨?_, ?_, ?_, ?_⟩
    · rw [hr.2.2.1, hds.2.2.1]
    · rw [hr.2.2.2.1, hds.2.2.2]
    · rw [hr.1, hds.1]
    · rw [hr.2.1, hds.1, hds.2.1]

/-- Wake-log accounting for a processed `Command Complete` event. -/
theorem complete_wakes (e : CmdCompleteEvt) (s s' : Sys)
    (h : hci_cmd_complete e s = some s') :
    s'.wakes = s.wakes ∨ s'.wakes = s.wakes ++ [e.opcode] := by
  simp only [hci_cmd_complete] at h
  cases hd : hci_cmd_done e.opcode
      { s with dev := hci_cmd_complete_parse e.opcode e.params s.dev } with
  | none => rw [hd] at h; exact absurd h (by simp)
  | some s2 =>
    rw [hd] at h
    simp only [Option.some.injEq] at h
    subst h
    have hw := done_wakes e.opcode _ s2 hd
    have hr := refill_shape e.ncmd s2
    rw [hr.2.2.2.2.1]
    exact hw

/-- Wake-log accounting for a processed `Command Status` event. -/
theorem status_wakes (e : CmdStatusEvt) (s s' : Sys)
    (h : hci_cmd_status e s = some s') :
    s'.wakes = s.wakes ∨ s'.wakes = s.wakes ++ [e.opcode] := by
  simp only [hci_cmd_status] at h
  cases hd : hci_cmd_done e.opcode s with
  | none => rw [hd] at h; exact absurd h (by simp)
  | some s2 =>
    rw [hd] at h
    simp only [Option.some.injEq] at h
    subst h
    have hw := done_wakes e.opcode s s2 hd
    have hr := refill_shape e.ncmd s2
    rw [hr.2.2.2.2.1]
    exact hw

/-- Every enabled step preserves the credit/phase invariant. -/
theorem step_inv (s s' : Sys) (l : Label) (h : step s l = some s')
    (hi : SysInv s) : SysInv s' := by
  cases l with
  | enq b =>
    simp only [step, Option.some.injEq] at h
    subst h
    exact hi
  | tok =>
    simp only [step] at h
    split at h
    · rename_i hc
      simp only [Option.some.injEq] at h
      subst h
      have h1 := hi.1 hc.1
      have h2 := hc.2
      refine ⟨fun hp => absurd hp (by simp), fun _ => ⟨?_, ?_⟩⟩
      · show s.sem - 1 = 0
        omega
      · show s.dev.ncmd = 1
        omega
    · exact absurd h (by simp)
  | send b =>
    simp only [step] at h
    split at h
    · rename_i b0 rest hph hq
      split at h
      · simp only [Option.some.injEq] at h
        subst h
        have h2 := hi.2 hph
        refine ⟨fun _ => ⟨?_, ?_⟩, fun hp => absurd hp (by simp)⟩
        · show s.sem = 0
          exact h2.1
        · show (0 : Nat) ≤ 1
          omega
      · exact absurd h (by simp)
    · exact absurd h (by simp)
  | complete e =>
    simp only [step] at h
    obtain ⟨hph, hq, hn, hsem⟩ := complete_shape e s s' h
    constructor
    · intro hp
      rw [hph] at hp
      have h1 := hi.1 hp
      rw [hn, hsem]
      by_cases hc : e.ncmd ≠ 0 ∧ s.dev.ncmd = 0
      · rw [if_pos hc, if_pos hc]
        constructor
        · omega
        · omega
      · rw [if_neg hc, if_neg hc]
        exact h1
    · intro hp
      rw [hph] at hp
      have h2 := hi.2 hp
      have hcneg : ¬ (e.ncmd ≠ 0 ∧ s.dev.ncmd = 0) := by
        intro hc
        omega
      rw [hn, hsem, if_neg hcneg, if_neg hcneg]
      exact h2
  | status e =>
    simp only [step] at h
    obtain ⟨hph, hq, hn, hsem⟩ := status_shape e s s' h
    constructor
    · intro hp
      rw [hph] at hp
      have h1 := hi.1 hp
      rw [hn, hsem]
      by_cases hc : e.ncmd ≠ 0 ∧ s.dev.ncmd = 0
      · rw [if_pos hc, if_pos hc]
        constructor
        · omega
        · omega
      · rw [if_neg hc, if_neg hc]
        exact h1
    · intro hp
      rw [hph] at hp
      have h2 := hi.2 hp
      have hcneg : ¬ (e.ncmd ≠ 0 ∧ s.dev.ncmd = 0) := by
        intro hc
        omega
      rw [hn, hsem, if_neg hcneg, if_neg hcneg]
      exact h2

/-- Main separation lemma: along any enabled trace from an invariant state,
`send`s are separated by credit-bearing completion events.  `f` dominates
the state abstraction `flagOf`. -/
theorem runSys_sep (tr : List Label) : ∀ (s s' : Sys), runSys s tr = some s' →
    SysInv s → ∀ f : Bool, (flagOf s = true → f = true) →
    sendsSeparated tr f = true := by
  induction tr with
  | nil =>
    intro s s' h hi f hf
    rfl
  | cons l tr ih =>
    intro s s' h hi f hf
    simp only [runSys] at h
    cases hstep : step s l with
    | none => rw [hstep] at h; exact absurd h (by simp)
    | some s1 =>
      rw [hstep] at h
      have hi1 := step_inv s s1 l hstep hi
      cases l with
      | enq b =>
        show sendsSeparated tr f = true
        refine ih s1 s' h hi1 f ?_
        intro hf1
        apply hf
        have hb : s1 = { s with cmdq := s.cmdq ++ [b] } := by
          simp only [step, Option.some.injEq] at hstep
          exact hstep.symm
        rw [hb] at hf1
        exact hf1
      | tok =>
        show sendsSeparated tr f = true
        simp only [step] at hstep
        split at hstep
        · rename_i hc
          simp only [Option.some.injEq] at hstep
          have h1 := hi.1 hc.1
          have hn1 : s.dev.ncmd = 1 := by omega
          have hfT : f = true := hf (by simp [flagOf, hn1])
          exact ih s1 s' h hi1 f (fun _ => hfT)
        · exact absurd hstep (by simp)
      | send b =>
        show (f && sendsSeparated tr false) = true
        simp only [step] at hstep
        split at hstep
        · rename_i b0 rest hph hq
          split at hstep
          · simp only [Option.some.injEq] at hstep
            have hfT : f = true := hf (by simp [flagOf, hph])
            have hrec : sendsSeparated tr false = true := by
              refine ih s1 s' h hi1 false ?_
              intro hf1
              rw [← hstep] at hf1
              simp [flagOf] at hf1
            rw [hfT, hrec]
            rfl
          · exact absurd hstep (by simp)
        · exact absurd hstep (by simp)
      | complete e =>
        show sendsSeparated tr (f || decide (e.ncmd ≠ 0)) = true
        obtain ⟨hph, hq, hn, hsem⟩ := complete_shape e s s1 hstep
        refine ih s1 s' h hi1 _ ?_
        intro hf1
        by_cases he : e.ncmd ≠ 0
        · simp [he]
        · have hn' : s1.dev.ncmd = s.dev.ncmd := by
            rw [hn, if_neg]
            intro hc
            exact he hc.1
          have hfs : flagOf s = true := by
            unfold flagOf at hf1 ⊢
            rw [hn', hph] at hf1
            exact hf1
          rw [hf hfs]
          rfl
      | status e =>
        show sendsSeparated tr (f || decide (e.ncmd ≠ 0)) = true
        obtain ⟨hph, hq, hn, hsem⟩ := status_shape e s s1 hstep
        refine ih s1 s' h hi1 _ ?_
        intro hf1
        by_cases he : e.ncmd ≠ 0
        · simp [he]
        · have hn' : s1.dev.ncmd = s.dev.ncmd := by
            rw [hn, if_neg]
            intro hc
            exact he hc.1
          have hfs : flagOf s = true := by
            unfold flagOf at hf1 ⊢
            rw [hn', hph] at hf1
            exact hf1
          rw [hf hfs]
          rfl

/-- Every wake recorded along a trace stems from a Command Complete or
Command Status label of that trace carrying the woken opcode. -/
theorem runSys_wakes (tr : List Label) : ∀ (s s' : Sys), runSys s tr = some s' →
    ∀ w ∈ s'.wakes, w ∈ s.wakes ∨
      (∃ e : CmdCompleteEvt, Label.complete e ∈ tr ∧ e.opcode = w) ∨
      (∃ e : CmdStatusEvt, Label.status e ∈ tr ∧ e.opcode = w) := by
  induction tr with
  | nil =>
    intro s s' h w hw
    simp only [runSys, Option.some.injEq] at h
    subst h
    exact Or.inl hw
  | cons l tr ih =>
    intro s s' h w hw
    simp only [runSys] at h
    cases hstep : step s l with
    | none => rw [hstep] at h; exact absurd h (by simp)
    | some s1 =>
      rw [hstep] at h
      rcases ih s1 s' h w hw with h1 | h2 | h3
      · cases l with
        | enq b =>
          have hb : s1 = { s with cmdq := s.cmdq ++ [b] } := by
            simp only [step, Option.some.injEq] at hstep
            exact hstep.symm
          rw [hb] at h1
          exact Or.inl h1
        | tok =>
          simp only [step] at hstep
          split at hstep
          · simp only [Option.some.injEq] at hstep
            rw [← hstep] at h1
            exact Or.inl h1
          · exact absurd hstep (by simp)
        | send b =>
          simp only [step] at hstep
          split at hstep
          · split at hstep
            · simp only [Option.some.injEq] at hstep
              rw [← hstep] at h1
              exact Or.inl h1
            · exact absurd hstep (by simp)
          · exact absurd hstep (by simp)
        | complete e =>
          rcases complete_wakes e s s1 hstep with hw1 | hw2
          · rw [hw1] at h1
            exact Or.inl h1
          · rw [hw2] at h1
            rcases List.mem_append.mp h1 with hl | hr
            · exact Or.inl hl
            · have : w = e.opcode := List.mem_singleton.mp hr
              exact Or.inr (Or.inl ⟨e, List.mem_cons_self _ _, this.symm⟩)
        | status e =>
          rcases status_wakes e s s1 hstep with hw1 | hw2
          · rw [hw1] at h1
            exact Or.inl h1
          · rw [hw2] at h1
            rcases List.mem_append.mp h1 with hl | hr
            · exact Or.inl hl
            · have : w = e.opcode := List.mem_singleton.mp hr
              exact Or.inr (Or.inr ⟨e, List.mem_cons_self _ _, this.symm⟩)
      · obtain ⟨e, he, hop⟩ := h2
        exact Or.inr (Or.inl ⟨e, List.mem_cons_of_mem _ he, hop⟩)
      · obtain ⟨e, he, hop⟩ := h3
        exact Or.inr (Or.inr ⟨e, List.mem_cons_of_mem _ he, hop⟩)

/-- On a mismatched `Command Complete` (a command is outstanding, its opcode
differs from the event's), the correlator leaves `sent_cmd`, the pool and
the wake log alone, but the credit refill still runs. -/
theorem complete_mismatch (e : CmdCompleteEvt) (s : Sys) (b : BtBuf)
    (hs : s.dev.sent_cmd = some b) (hop : b.opcode ≠ e.opcode) :
    ∃ s', hci_cmd_complete e s = some s' ∧ s'.dev.sent_cmd = some b ∧
      s'.pool = s.pool ∧ s'.wakes = s.wakes ∧
      s'.dev.ncmd = (if e.ncmd ≠ 0 ∧ s.dev.ncmd = 0 then 1 else s.dev.ncmd) ∧
      s'.sem = (if e.ncmd ≠ 0 ∧ s.dev.ncmd = 0 then s.sem + 1 else s.sem) := by
  have hp := parse_ncmd_sent e.opcode e.params s.dev
  have hsent : (hci_cmd_complete_parse e.opcode e.params s.dev).sent_cmd = some b :=
    hp.2.trans hs
  refine ⟨hci_ncmd_refill e.ncmd
      { s with dev := hci_cmd_complete_parse e.opcode e.params s.dev },
      ?_, ?_, ?_, ?_, ?_, ?_⟩
  · simp only [hci_cmd_complete, hci_cmd_done, hsent]
    rw [if_pos hop]
  · have h1 := (refill_shape e.ncmd
      { s with dev := hci_cmd_complete_parse e.opcode e.params s.dev }).2.2.2.2.2.2
    rw [h1]
    exact hsent
  · exact (refill_shape e.ncmd _).2.2.2.2.2.1
  · exact (refill_shape e.ncmd _).2.2.2.2.1
  · have h1 := (refill_shape e.ncmd
      { s with dev := hci_cmd_complete_parse e.opcode e.params s.dev }).1
    rw [h1]
    simp only [hp.1]
  · have h1 := (refill_shape e.ncmd
      { s with dev := hci_cmd_complete_parse e.opcode e.params s.dev }).2.1
    rw [h1]
    simp only [hp.1]

/-- On a mismatched `Command Status`, same accounting. -/
theorem status_mismatch (e : CmdStatusEvt) (s : Sys) (b : BtBuf)
    (hs : s.dev.sent_cmd = some b) (hop : b.opcode ≠ e.opcode) :
    ∃ s', hci_cmd_status e s = some s' ∧ s'.dev.sent_cmd = some b ∧
      s'.pool = s.pool ∧ s'.wakes = s.wakes ∧
      s'.dev.ncmd = (if e.ncmd ≠ 0 ∧ s.dev.ncmd = 0 then 1 else s.dev.ncmd) ∧
      s'.sem = (if e.ncmd ≠ 0 ∧ s.dev.ncmd = 0 then s.sem + 1 else s.sem) := by
  refine ⟨hci_ncmd_refill e.ncmd s, ?_, ?_, ?_, ?_, ?_, ?_⟩
  · simp only [hci_cmd_status, hci_cmd_done, hs]
    rw [if_pos hop]
  · exact ((refill_shape e.ncmd s).2.2.2.2.2.2).trans hs
  · exact (refill_shape e.ncmd s).2.2.2.2.2.1
  · exact (refill_shape e.ncmd s).2.2.2.2.1
  · exact (refill_shape e.ncmd s).1
  · exact (refill_shape e.ncmd s).2.1

/-- With no outstanding command, processing a `Command Complete` dereferences
the null `sent_cmd` (no defined result). -/
theorem complete_none (e : CmdCompleteEvt) (s : Sys)
    (hs : s.dev.sent_cmd = none) :
    hci_cmd_complete e s = none := by
  have hp := parse_ncmd_sent e.opcode e.params s.dev
  have hsent : (hci_cmd_complete_parse e.opcode e.params s.dev).sent_cmd = none :=
    hp.2.trans hs
  simp only [hci_cmd_complete, hci_cmd_done, hsent]

/-- With no outstanding command, processing a `Command Status` dereferences
the null `sent_cmd` (no defined result). -/
theorem status_none (e : CmdStatusEvt) (s : Sys)
    (hs : s.dev.sent_cmd = none) :
    hci_cmd_status e s = none := by
  simp only [hci_cmd_status, hci_cmd_done, hs]

/-! ### Claim theorems -/

/-- C1 (counterexample): processing the mismatched completion `evtMismatch`
(opcode 2) with `bufA` (opcode 1) outstanding and no credit *does* refill
the credit (`ncmd` 0 → 1, semaphore given), contradicting "no credit is
refilled"; and with `sent_cmd` empty the correlator dereferences a null
pointer instead of only logging. -/
theorem c1_counterexample :
    hci_cmd_complete evtMismatch sysOut
        = some { sysOut with dev := { sysOut.dev with ncmd := 1 }, sem := 1 } ∧
    sysOut.dev.ncmd = 0 ∧ sysOut.sem = 0 ∧
    hci_cmd_complete evtMismatch
        { sysOut with dev := { sysOut.dev with sent_cmd := none } } = none := by
  decide

/-- C1 (amended): for a Command Complete or Command Status event processed
while a command is outstanding whose opcode differs from the event's, the
correlator leaves `sent_cmd` unchanged, releases no buffer and wakes no
sync waiter — but the credit refill still runs (`ncmd`/semaphore change iff
the event carries `ncmd ≠ 0` and the credit was 0).  When `sent_cmd` is
empty the code dereferences a null pointer rather than logging. -/
theorem c1_unexpected_completion_amended :
    (∀ (e : CmdCompleteEvt) (s : Sys) (b : BtBuf), s.dev.sent_cmd = some b →
      b.opcode ≠ e.opcode →
      ∃ s', hci_cmd_complete e s = some s' ∧ s'.dev.sent_cmd = some b ∧
        s'.pool = s.pool ∧ s'.wakes = s.wakes ∧
        s'.dev.ncmd = (if e.ncmd ≠ 0 ∧ s.dev.ncmd = 0 then 1 else s.dev.ncmd) ∧
        s'.sem = (if e.ncmd ≠ 0 ∧ s.dev.ncmd = 0 then s.sem + 1 else s.sem)) ∧
    (∀ (e : CmdStatusEvt) (s : Sys) (b : BtBuf), s.dev.sent_cmd = some b →
      b.opcode ≠ e.opcode →
      ∃ s', hci_cmd_status e s = some s' ∧ s'.dev.sent_cmd = some b ∧
        s'.pool = s.pool ∧ s'.wakes = s.wakes ∧
        s'.dev.ncmd = (if e.ncmd ≠ 0 ∧ s.dev.ncmd = 0 then 1 else s.dev.ncmd) ∧
        s'.sem = (if e.ncmd ≠ 0 ∧ s.dev.ncmd = 0 then s.sem + 1 else s.sem)) ∧
    (∀ (e : CmdCompleteEvt) (s : Sys), s.dev.sent_cmd = none →
      hci_cmd_complete e s = none) ∧
    (∀ (e : CmdStatusEvt) (s : Sys), s.dev.sent_cmd = none →
      hci_cmd_status e s = none) :=
  ⟨complete_mismatch, status_mismatch, complete_none, status_none⟩

/-- C1 (witness): the amended statement applied at concrete mismatching
events and states. -/
theorem c1_witness :
    (∃ s', hci_cmd_complete evtMismatch sysOut = some s' ∧
      s'.dev.sent_cmd = some bufA ∧ s'.pool = sysOut.pool ∧
      s'.wakes = sysOut.wakes ∧
      s'.dev.ncmd = (if evtMismatch.ncmd ≠ 0 ∧ sysOut.dev.ncmd = 0 then 1
                     else sysOut.dev.ncmd) ∧
      s'.sem = (if evtMismatch.ncmd ≠ 0 ∧ sysOut.dev.ncmd = 0 then sysOut.sem + 1
                else sysOut.sem)) ∧
    hci_cmd_complete evtMismatch
        { sysOut with dev := { sysOut.dev with sent_cmd := none } } = none :=
  ⟨c1_unexpected_completion_amended.1 evtMismatch sysOut bufA (by decide) (by decide),
   c1_unexpected_completion_amended.2.2.1 evtMismatch
     { sysOut with dev := { sysOut.dev with sent_cmd := none } } (by decide)⟩

/-- C4: after every processed Command Complete or Command Status event, if
the event carried `ncmd > 0` and the credit was 0, the credit becomes 1 and
the semaphore count rises by exactly one; in every other case both are
unchanged. -/
theorem c4_credit_refill :
    (∀ (e : CmdCompleteEvt) (s s' : Sys), hci_cmd_complete e s = some s' →
      s'.dev.ncmd = (if e.ncmd ≠ 0 ∧ s.dev.ncmd = 0 then 1 else s.dev.ncmd) ∧
      s'.sem = (if e.ncmd ≠ 0 ∧ s.dev.ncmd = 0 then s.sem + 1 else s.sem)) ∧
    (∀ (e : CmdStatusEvt) (s s' : Sys), hci_cmd_status e s = some s' →
      s'.dev.ncmd = (if e.ncmd ≠ 0 ∧ s.dev.ncmd = 0 then 1 else s.dev.ncmd) ∧
      s'.sem = (if e.ncmd ≠ 0 ∧ s.dev.ncmd = 0 then s.sem + 1 else s.sem)) :=
  ⟨fun e s s' h => ⟨(complete_shape e s s' h).2.2.1, (complete_shape e s s' h).2.2.2⟩,
   fun e s s' h => ⟨(status_shape e s s' h).2.2.1, (status_shape e s s' h).2.2.2⟩⟩

/-- C4 (witness): the refill rule evaluated on the matching completion of
`bufA`. -/
theorem c4_witness :
    sysCompleted.dev.ncmd
        = (if evtMatch.ncmd ≠ 0 ∧ sysAfterSend.dev.ncmd = 0 then 1
           else sysAfterSend.dev.ncmd) ∧
    sysCompleted.sem
        = (if evtMatch.ncmd ≠ 0 ∧ sysAfterSend.dev.ncmd = 0 then sysAfterSend.sem + 1
           else sysAfterSend.sem) :=
  c4_credit_refill.1 evtMatch sysAfterSend sysCompleted (by decide)

/-- C5 (counterexample): the trace `trcC5` is enabled from the initial
state, yet it hands a second buffer to `driver.send` without any completion
correlated to the first outstanding command — the mismatched completion
alone refilled the credit. -/
theorem c5_counterexample :
    (runSys initSys trcC5).isSome = true ∧ claimC5Ok trcC5 none = false := by
  decide

/-- C5 (amended): along every enabled trace from the initial state, between
any two buffers handed to `driver.send` some Command Complete or Command
Status event advertising `ncmd > 0` is processed (it refills the credit);
the completion need not be correlated to the outstanding command. -/
theorem c5_single_outstanding_amended : ∀ (tr : List Label) (s' : Sys),
    runSys initSys tr = some s' → sendsSeparated tr true = true :=
  fun tr s' h =>
    runSys_sep tr initSys s' h (by unfold SysInv; decide) true (fun _ => rfl)

/-- C5 (witness): the amended separation property evaluated on a concrete
enabled trace. -/
theorem c5_witness : sendsSeparated trcWitness true = true :=
  c5_single_outstanding_amended trcWitness sysCompleted (by decide)

/-- C6: in every reachable state, every recorded synchronous wake-up stems
from a Command Complete or Command Status label of the trace whose event
opcode equals the woken waiter's opcode — the sync signal is given only on
an opcode match, after that completion has been consumed. -/
theorem c6_sync_wake_matching : ∀ (tr : List Label) (s' : Sys),
    runSys initSys tr = some s' → ∀ w ∈ s'.wakes,
      (∃ e : CmdCompleteEvt, Label.complete e ∈ tr ∧ e.opcode = w) ∨
      (∃ e : CmdStatusEvt, Label.status e ∈ tr ∧ e.opcode = w) := by
  intro tr s' h w hw
  rcases runSys_wakes tr initSys s' h w hw with h0 | h1 | h2
  · simp [initSys] at h0
  · exact Or.inl h1
  · exact Or.inr h2

/-- C6 (witness): the wake of opcode 1 recorded along `trcWitness` is
justified by a completion label for opcode 1. -/
theorem c6_witness :
    (∃ e : CmdCompleteEvt, Label.complete e ∈ trcWitness ∧ e.opcode = 1) ∨
    (∃ e : CmdStatusEvt, Label.status e ∈ trcWitness ∧ e.opcode = 1) :=
  c6_sync_wake_matching trcWitness sysCompleted (by decide) 1 (by decide)

/-- C2 (counterexample): for `features[4] = 0x20` (`NO_BREDR` set, `LE`
clear) the claimed condition "`NO_BREDR` clear AND `LE` clear" is false, yet
bring-up still aborts with `NoDevice` — the code tests only the `LE` bit. -/
theorem c2_counterexample :
    ¬ (bt_init true 0 allocAll devNoBredr = InitRes.nodev ↔
       (Nat.land (devNoBredr.features.getD 4 0) BT_LMP_NO_BREDR = 0 ∧
        Nat.land (devNoBredr.features.getD 4 0) BT_LMP_LE = 0)) := by
  decide

/-- C2 (amended): with a registered driver and a successful `open`, bring-up
aborts with `NoDevice` exactly when `features[4] & LE` is clear, regardless
of the `NO_BREDR` bit; in particular `features[4] = 0x00` yields
`NoDevice`. -/
theorem c2_nodev_iff_le_clear : ∀ (alloc : Nat → Bool) (d : BtDev),
    bt_init true 0 alloc d = InitRes.nodev ↔
      Nat.land (d.features.getD 4 0) BT_LMP_LE = 0 := by
  intro alloc d
  have hb : bt_init true 0 alloc d = hci_init alloc d := by
    simp [bt_init]
  rw [hb]
  by_cases hLE : Nat.land (d.features.getD 4 0) BT_LMP_LE = 0
  · simp only [hci_init]
    rw [if_pos hLE]
    exact iff_of_true rfl hLE
  · simp only [hci_init]
    rw [if_neg hLE]
    constructor
    · intro h
      exfalso
      split_ifs at h <;> simp_all
    · intro h
      exact absurd h hLE

/-- C2 (witness): an all-zero feature page (`features[4] = 0x00`) makes
bring-up return `NoDevice`. -/
theorem c2_witness : bt_init true 0 allocAll initDev = InitRes.nodev :=
  (c2_nodev_iff_le_clear allocAll initDev).mpr (by decide)

/-- C3: for each of the seven recognized opcodes, the response-parser switch
has exactly the effect of the §4.5 table on the controller state record
(full record equality: no other field changes). -/
theorem c3_response_parsers_match_table :
    (∀ (p : List Nat) (d : BtDev),
      hci_cmd_complete_parse BT_HCI_OP_RESET p d
        = spec_response_table BT_HCI_OP_RESET p d) ∧
    (∀ (p : List Nat) (d : BtDev),
      hci_cmd_complete_parse BT_HCI_OP_READ_LOCAL_VERSION_INFO p d
        = spec_response_table BT_HCI_OP_READ_LOCAL_VERSION_INFO p d) ∧
    (∀ (p : List Nat) (d : BtDev),
      hci_cmd_complete_parse BT_HCI_OP_READ_LOCAL_FEATURES p d
        = spec_response_table BT_HCI_OP_READ_LOCAL_FEATURES p d) ∧
    (∀ (p : List Nat) (d : BtDev),
      hci_cmd_complete_parse BT_HCI_OP_READ_BUFFER_SIZE p d
        = spec_response_table BT_HCI_OP_READ_BUFFER_SIZE p d) ∧
    (∀ (p : List Nat) (d : BtDev),
      hci_cmd_complete_parse BT_HCI_OP_READ_BD_ADDR p d
        = spec_response_table BT_HCI_OP_READ_BD_ADDR p d) ∧
    (∀ (p : List Nat) (d : BtDev),
      hci_cmd_complete_parse BT_HCI_OP_LE_READ_BUFFER_SIZE p d
        = spec_response_table BT_HCI_OP_LE_READ_BUFFER_SIZE p d) ∧
    (∀ (p : List Nat) (d : BtDev),
      hci_cmd_complete_parse BT_HCI_OP_LE_READ_LOCAL_FEATURES p d
        = spec_response_table BT_HCI_OP_LE_READ_LOCAL_FEATURES p d) := by
  refine ⟨?_, ?_, ?_, ?_, ?_, ?_, ?_⟩ <;> intro p d <;>
    simp only [hci_cmd_complete_parse, spec_response_table, hci_reset_complete,
      hci_read_local_ver_complete, hci_read_features_complete,
      hci_read_buffer_size_complete, hci_read_bdaddr_complete,
      hci_le_read_buffer_size_complete, hci_le_read_features_complete,
      BT_HCI_OP_RESET, BT_HCI_OP_READ_LOCAL_VERSION_INFO,
      BT_HCI_OP_READ_LOCAL_FEATURES, BT_HCI_OP_READ_BUFFER_SIZE,
      BT_HCI_OP_READ_BD_ADDR, BT_HCI_OP_LE_READ_BUFFER_SIZE,
      BT_HCI_OP_LE_READ_LOCAL_FEATURES] <;>
    norm_num <;> split_ifs <;> simp_all

/-- C7: for every received ACL packet long enough to contain the 4-byte
header, the handler pulls the header, never delivers upstream, always
returns the buffer to the pool, leaves the device record unchanged, and
takes the logged drop path exactly when the total length disagrees with
`len + sizeof(header)`. -/
theorem c7_acl_length_check : ∀ (p : List Nat) (d : BtDev), 4 ≤ p.length →
    hci_acl p d
      = some (d,
          { released := true, delivered := false,
            err_logged := decide (p.length ≠ rd16 p 2 + 4) }) := by
  intro p d h4
  have hdrop : (p.drop 4).length = p.length - 4 := List.length_drop 4 p
  simp only [hci_acl]
  rw [if_neg (by omega)]
  by_cases hm : (p.drop 4).length ≠ rd16 p 2
  · rw [if_pos hm]
    have hne : p.length ≠ rd16 p 2 + 4 := by omega
    rw [decide_eq_true hne]
  · rw [if_neg hm]
    have heq : ¬ p.length ≠ rd16 p 2 + 4 := by omega
    rw [decide_eq_false heq]

/-- C7 (witness): a 4-byte packet whose header announces 5 payload bytes is
dropped with a log, released, and not delivered. -/
theorem c7_witness :
    hci_acl [0, 0, 5, 0] initDev
      = some (initDev,
          { released := true, delivered := false,
            err_logged := decide (([0, 0, 5, 0] : List Nat).length
                            ≠ rd16 [0, 0, 5, 0] 2 + 4) }) :=
  c7_acl_length_check [0, 0, 5, 0] initDev (by decide)

/-- C8: starting from any view with `headroom + len ≤ cap` (e.g. a freshly
acquired buffer), after every prefix of a sequence of `add`/`push`/`pull`
operations whose stated preconditions hold, `headroom + len + tailroom`
equals the capacity (and both slacks, being `Nat`, are nonnegative). -/
theorem c8_view_invariant : ∀ (cap : Nat) (ops : List BufOp) (b : BtBuf),
    bt_buf_headroom b + b.len ≤ cap → bufOpsPre cap b ops = true → ∀ k : Nat,
    bt_buf_headroom (bufOpsApply b (ops.take k)) + (bufOpsApply b (ops.take k)).len
      + bt_buf_tailroom cap (bufOpsApply b (ops.take k)) = cap := by
  intro cap ops
  induction ops with
  | nil =>
    intro b hb _ k
    simp only [List.take_nil, bufOpsApply]
    simp only [bt_buf_headroom, bt_buf_tailroom] at *
    omega
  | cons o os ih =>
    intro b hb hpre k
    have hpre' : bufOpPre cap b o = true ∧ bufOpsPre cap (bufOpApply b o) os = true := by
      simpa [bufOpsPre, Bool.and_eq_true] using hpre
    cases k with
    | zero =>
      simp only [List.take_zero, bufOpsApply]
      simp only [bt_buf_headroom, bt_buf_tailroom] at *
      omega
    | succ k =>
      have hb1 : bt_buf_headroom (bufOpApply b o) + (bufOpApply b o).len ≤ cap := by
        have hp1 := hpre'.1
        cases o <;>
          simp only [bufOpApply, bufOpPre, bt_buf_add, bt_buf_push, bt_buf_pull,
            bt_buf_headroom, bt_buf_tailroom, decide_eq_true_eq] at * <;>
          omega
      have := ih (bufOpApply b o) hb1 hpre'.2 k
      simpa [bufOpsApply] using this

/-- C8 (witness): the invariant evaluated along a concrete valid sequence
(`add 1`, `push 2`, `pull 4` from headroom 2, length 3, capacity 10). -/
theorem c8_witness :
    bt_buf_headroom (bufOpsApply bufView23 (opsSample.take 3))
      + (bufOpsApply bufView23 (opsSample.take 3)).len
      + bt_buf_tailroom 10 (bufOpsApply bufView23 (opsSample.take 3))
      = 10 :=
  c8_view_invariant 10 opsSample bufView23 (by decide) (by decide) 3

/-- C9: `bt_buf_get_reserve` resets only `data`, `len` and `sync`; the
`type` and `opcode` fields keep whatever the buffer's previous user stored,
until a caller such as `bt_hci_cmd_create` sets them. -/
theorem c9_get_reserve_stale_fields :
    (∀ (r : Nat) (b : BtBuf),
      (bt_buf_get_reserve r b).typ = b.typ ∧
      (bt_buf_get_reserve r b).opcode = b.opcode ∧
      (bt_buf_get_reserve r b).dataOff = r ∧
      (bt_buf_get_reserve r b).len = 0 ∧
      (bt_buf_get_reserve r b).sync = false) ∧
    (∀ (op pl hr : Nat) (b : BtBuf),
      (bt_hci_cmd_create_buf op pl hr b).typ = BT_CMD ∧
      (bt_hci_cmd_create_buf op pl hr b).opcode = op) :=
  ⟨fun _ _ => ⟨rfl, rfl, rfl, rfl, rfl⟩, fun _ _ _ _ => ⟨rfl, rfl⟩⟩

/-- C10: the return value of `hci_init` in full: `NoDevice` iff the LE bit
is clear; otherwise `NoBuffer` exactly when the `bt_hci_cmd_create` for
`SET_EVENT_MASK` (acquisition 6) or for `LE_WRITE_LE_HOST_SUPP`
(acquisition 8 when `READ_BUFFER_SIZE` was also sent, else 7) fails — the
discarded results of every `bt_hci_cmd_send`/`_sync` (acquisitions 0–5 and
the conditional 7) never influence it. -/
theorem c10_init_error_sources : ∀ (alloc : Nat → Bool) (d : BtDev),
    hci_init alloc d =
      (if Nat.land (d.features.getD 4 0) BT_LMP_LE = 0 then InitRes.nodev
       else if alloc 6 = false then InitRes.nobufs
       else if Nat.land (d.features.getD 4 0) BT_LMP_NO_BREDR = 0 then
         (if alloc (if d.le_mtu = 0 then 8 else 7) = false then InitRes.nobufs
          else InitRes.ok)
       else InitRes.ok) := by
  intro alloc d
  simp only [hci_init, bt_hci_cmd_send_r, bt_hci_cmd_send_sync_r, bt_hci_cmd_create_r]
